import Mathlib

/-!
Verification development for the anvil-firebase repository.

Shallow embedding of the client-side validation and message-model layer
(`client_code/validators.py`, `client_code/messages.py`,
`client_code/client_utils.py`) and of the server-side compilation and
dispatch layer (`server_code/server.py`, `server_code/server_utils.py`).

Python values are embedded as the inductive type `Val`.  Python `bool` is a
subclass of `int`, so `isinstance(x, int)` is true for booleans; the helper
`isIntV` mirrors that.  Python floats are embedded as opaque atoms carrying
their `repr` string: none of the verified code computes with float values,
it only tests `isinstance` on them and stringifies them.  Exceptions are
embedded as `Except PyErr`.
-/

set_option maxRecDepth 4000

namespace AF

/-- Python exceptions raised by the embedded code: `ValueError`, `TypeError`,
or an arbitrary exception propagated from the external SDK. -/
inductive PyErr where
  | valueError (msg : String)
  | typeError (msg : String)
  | exn (msg : String)
deriving DecidableEq

/-- `str(e)` of an embedded exception: Python renders the message. -/
def PyErr.msgStr : PyErr → String
  | .valueError m => m
  | .typeError m => m
  | .exn m => m

/-- Embedded Python values.  The object constructors mirror the portable
classes of `client_code/messages.py`; their arguments are the validated
attribute values in the order the source assigns them.  A `message` with
`simple = true` is a `SimpleMessage` (a subclass of `Message`, with the same
attributes); `simple = false` is a plain `Message`. -/
inductive Val where
  | none
  | str (s : String)
  | int (n : Int)
  | bool (b : Bool)
  | float (rep : String)
  | list (items : List Val)
  | dict (items : List (Val × Val))
  | func (id : Nat)
  | wpAction (action title icon : Val)
  | wpNotification (title body icon actions badge data direction image
      language renotify require_interaction silent tag timestamp_millis
      vibrate custom_data : Val)
  | wpFCMOptions (link : Val)
  | wpConfig (headers data notification fcm_options : Val)
  | message (simple : Bool) (data webpush fcm_options token topic condition : Val)
  | multicastMessage (data webpush fcm_options tokens condition : Val)

/-- `x is None`. -/
def isNoneV : Val → Bool
  | .none => true
  | _ => false

/-- `isinstance(x, str)`. -/
def isStrV : Val → Bool
  | .str _ => true
  | _ => false

/-- `isinstance(x, int)`.  Python booleans are ints. -/
def isIntV : Val → Bool
  | .int _ => true
  | .bool _ => true
  | _ => false

/-- `isinstance(x, bool)`. -/
def isBoolV : Val → Bool
  | .bool _ => true
  | _ => false

/-- `isinstance(x, list)`. -/
def isListV : Val → Bool
  | .list _ => true
  | _ => false

/-- `isinstance(x, dict)`. -/
def isDictV : Val → Bool
  | .dict _ => true
  | _ => false

/-- `callable(x)`. -/
def isCallableV : Val → Bool
  | .func _ => true
  | _ => false

/-- `isinstance(x, (str, int, float))` as used by
`FirebaseMessaging._process_data`; booleans pass via `int`. -/
def isPrimV : Val → Bool
  | .str _ => true
  | .int _ => true
  | .bool _ => true
  | .float _ => true
  | _ => false

/-- Python truthiness of an embedded value.  Objects are truthy. -/
def truthy : Val → Bool
  | .none => false
  | .str s => decide (s ≠ "")
  | .int n => decide (n ≠ 0)
  | .bool b => b
  | .float r => decide (r ≠ "0.0" ∧ r ≠ "-0.0")
  | .list xs => !xs.isEmpty
  | .dict xs => !xs.isEmpty
  | _ => true

/-- `str(x)`.  Exact for the primitives that the verified code stringifies
(`str`, `int`, `bool`, `float`); other values never reach a `str()` call in
the verified paths, and are given an opaque rendering. -/
def pyStr : Val → String
  | .str s => s
  | .int n => toString n
  | .bool b => if b then "True" else "False"
  | .float r => r
  | .none => "None"
  | _ => "<object>"

/- MARK: URL regular expressions (client_code/validators.py, validate_url)

The source pattern is `^https?:\/\/[^\s\/$?.#].[^\s]*$` where the bare `.`
is a wildcard matching any character except a newline.  Python `re.match`
with a trailing `$` also succeeds when exactly one `'\n'` remains at the end
of the string.  `\s` is modelled by its ASCII members, which covers every
string these claims exercise. -/

/-- Characters matched by the regex class `\s` (ASCII members). -/
def isPySpace (c : Char) : Bool :=
  c = ' ' || c = '\t' || c = '\n' || c = '\r' || c = Char.ofNat 11 || c = Char.ofNat 12

/-- The character class `[^\s\/$?.#]` (identical to the claim form
`[^\s/$?#.]`). -/
def urlHeadOk (c : Char) : Bool :=
  !(isPySpace c || c = '/' || c = '$' || c = '?' || c = '.' || c = '#')

/-- `[^\s]*$` under Python semantics: a greedy run of non-whitespace
characters followed by the end of the string or by a single final
newline. -/
def urlTailOk : List Char → Bool
  | [] => true
  | ['\n'] => true
  | c :: rest => !isPySpace c && urlTailOk rest

/-- The part after `https?://` in the source pattern:
`[^\s\/$?.#].[^\s]*$` — a head character, a wildcard character (anything
but a newline), then `urlTailOk`. -/
def urlRestOkCode : List Char → Bool
  | c1 :: c2 :: rest => urlHeadOk c1 && c2 ≠ '\n' && urlTailOk rest
  | _ => false

/-- The part after `https?://` in the claim pattern `[^\s/$?#.][^\s]*$`:
a head character then `urlTailOk` (no wildcard). -/
def urlRestOkSpec : List Char → Bool
  | c1 :: rest => urlHeadOk c1 && urlTailOk rest
  | _ => false

/-- Drop `pre` from the front of `l` when it is a prefix. -/
def dropPre : List Char → List Char → Option (List Char)
  | [], l => some l
  | _ :: _, [] => Option.none
  | p :: ps, c :: cs => if p = c then dropPre ps cs else Option.none

/-- `re.match(r"^https?:\/\/[^\s\/$?.#].[^\s]*$", s)` succeeds.  The
alternation `https?` is deterministic: the match proceeds with scheme
`https` exactly when the string starts with `https://`, else with
`http://`. -/
def urlMatchCode (s : String) : Bool :=
  match dropPre ("https://".data) s.data with
  | some rest => urlRestOkCode rest
  | Option.none =>
    match dropPre ("http://".data) s.data with
    | some rest => urlRestOkCode rest
    | Option.none => false

/-- The claim pattern `^https?://[^\s/$?#.][^\s]*$` as a matcher, written
from the claim text for comparison with `urlMatchCode`. -/
def urlMatchSpec (s : String) : Bool :=
  match dropPre ("https://".data) s.data with
  | some rest => urlRestOkSpec rest
  | Option.none =>
    match dropPre ("http://".data) s.data with
    | some rest => urlRestOkSpec rest
    | Option.none => false

/- MARK: Validators (client_code/validators.py)

Each validator mirrors the source `if/elif` chain in order.  `optional` and
`strings_only` are passed explicitly at every call site with the Python
default filled in. -/

/-- `Validators.validate_string`. -/
def validate_string (v : Val) (prop : String) (optional : Bool) : Except PyErr Val :=
  if isNoneV v && !optional then .error (.valueError (prop ++ " is required."))
  else if optional && !truthy v then .ok .none
  else if !isStrV v then .error (.typeError (prop ++ " must be a string."))
  else .ok v

/-- `Validators.validate_int`. -/
def validate_int (v : Val) (prop : String) (optional : Bool) : Except PyErr Val :=
  if isNoneV v && !optional then .error (.valueError (prop ++ " is required."))
  else if optional && !truthy v then .ok .none
  else if !isIntV v then .error (.typeError (prop ++ " must be an integer."))
  else .ok v

/-- `Validators.validate_list`. -/
def validate_list (v : Val) (prop : String) (strings_only optional : Bool) :
    Except PyErr Val :=
  if isNoneV v && !optional then .error (.valueError (prop ++ " is required."))
  else if optional && !truthy v then .ok .none
  else if !isListV v then .error (.typeError (prop ++ " must be a list."))
  else if strings_only &&
      !(match v with | .list xs => xs.all isStrV | _ => true) then
    .error (.typeError ("All items in " ++ prop ++ " must be strings."))
  else .ok v

/-- `Validators.validate_bool`. -/
def validate_bool (v : Val) (prop : String) (optional : Bool) : Except PyErr Val :=
  if isNoneV v then
    if optional then .ok .none
    else .error (.valueError (prop ++ " is required."))
  else if !isBoolV v then .error (.typeError (prop ++ " must be a boolean."))
  else .ok v

/-- `Validators.validate_dict`. -/
def validate_dict (v : Val) (prop : String) (strings_only optional : Bool) :
    Except PyErr Val :=
  if isNoneV v && !optional then .error (.valueError (prop ++ " is required."))
  else if optional && !truthy v then .ok .none
  else if !isDictV v then .error (.typeError (prop ++ " must be a dictionary."))
  else if strings_only &&
      !(match v with | .dict xs => xs.all (fun p => isStrV p.1) | _ => true) then
    .error (.typeError ("All keys in " ++ prop ++ " must be strings."))
  else .ok v

/-- `Validators.validate_url`.  `re.match` on a non-string raises a
`TypeError`. -/
def validate_url (v : Val) (prop : String) (optional : Bool) : Except PyErr Val :=
  if isNoneV v && !optional then .error (.valueError (prop ++ " is required."))
  else if isNoneV v then .ok .none
  else
    match v with
    | .str s =>
      if !urlMatchCode s then .error (.valueError (prop ++ " must be a valid URL."))
      else .ok v
    | _ => .error (.typeError ("expected string or bytes-like object"))

/-- `Validators.validate_string_options`.  The source interpolates the
Python repr of the options list into the message; the rendering here uses
Lean list notation for the same list. -/
def validate_string_options (v : Val) (prop : String) (options : List String)
    (optional : Bool) : Except PyErr Val :=
  if isNoneV v && !optional then .error (.valueError (prop ++ " is required."))
  else if optional && !truthy v then .ok .none
  else if !isStrV v then .error (.typeError (prop ++ " must be a string."))
  else if !(match v with | .str s => options.contains s | _ => false) then
    .error (.valueError (prop ++ " must be one of " ++ toString options ++ "."))
  else .ok v

/-- `Validators.validate_callable`. -/
def validate_callable (v : Val) (prop : String) (optional : Bool) : Except PyErr Val :=
  if isNoneV v && !optional then .error (.valueError (prop ++ " is required."))
  else if optional && !truthy v then .ok .none
  else if !isCallableV v then .error (.typeError (prop ++ " must be a callable."))
  else .ok v

/-- `Validators.validate_list_of_strings`. -/
def validate_list_of_strings (v : Val) (prop : String) (optional : Bool) :
    Except PyErr Val :=
  if isNoneV v && !optional then .error (.valueError (prop ++ " is required."))
  else if optional && !truthy v then .ok (.list [])
  else if isStrV v then .ok (.list [v])
  else if !isListV v then .error (.typeError (prop ++ " must be a list."))
  else if !(match v with | .list xs => xs.all isStrV | _ => true) then
    .error (.typeError ("All " ++ prop ++ " must be strings."))
  else .ok v

/-- `Validators.validate_specific_class`.  The class is passed as its
instance test together with its `__name__`. -/
def validate_specific_class (v : Val) (prop : String) (cls : Val → Bool)
    (clsName : String) (optional : Bool) : Except PyErr Val :=
  if isNoneV v && !optional then .error (.valueError (prop ++ " is required."))
  else if optional && !truthy v then .ok .none
  else if !cls v then
    .error (.typeError (prop ++ " must be an instance of " ++ clsName ++ "."))
  else .ok v

/-- `Validators.validate_list_of_specific_class`. -/
def validate_list_of_specific_class (v : Val) (prop : String) (cls : Val → Bool)
    (clsName : String) (optional : Bool) : Except PyErr Val :=
  if isNoneV v && !optional then .error (.valueError (prop ++ " is required."))
  else if optional && !truthy v then .ok (.list [])
  else if !isListV v then .error (.typeError (prop ++ " must be a list."))
  else if !(match v with | .list xs => xs.all cls | _ => true) then
    .error (.typeError
      ("All items in " ++ prop ++ " must be instances of " ++ clsName ++ "."))
  else .ok v

/- MARK: Message model (client_code/messages.py)

Each portable class becomes a `Val` constructor; its `__init__` becomes a
`mk…` function that runs the validators in source order and fails on the
first violation, exactly as the Python constructor raises. -/

/-- `isinstance(x, WebpushNotificationAction)`. -/
def isWpActionV : Val → Bool
  | .wpAction _ _ _ => true
  | _ => false

/-- `isinstance(x, WebpushNotification)`. -/
def isWpNotificationV : Val → Bool
  | .wpNotification _ _ _ _ _ _ _ _ _ _ _ _ _ _ _ _ => true
  | _ => false

/-- `isinstance(x, WebpushFCMOptions)`. -/
def isWpFCMOptionsV : Val → Bool
  | .wpFCMOptions _ => true
  | _ => false

/-- `isinstance(x, WebpushConfig)`. -/
def isWpConfigV : Val → Bool
  | .wpConfig _ _ _ _ => true
  | _ => false

/-- `isinstance(x, (Message, SimpleMessage))`: `SimpleMessage` subclasses
`Message`, so this is just the `Message` test. -/
def isMessageV : Val → Bool
  | .message _ _ _ _ _ _ _ => true
  | _ => false

/-- `isinstance(x, MulticastMessage)`. -/
def isMulticastV : Val → Bool
  | .multicastMessage _ _ _ _ _ => true
  | _ => false

/-- `WebpushNotificationAction.__init__`. -/
def mkWebpushNotificationAction (action title icon : Val) : Except PyErr Val := do
  let a ← validate_string action ("action") false
  let t ← validate_string title ("title") false
  let i ← validate_url icon ("icon") true
  return .wpAction a t i

/-- `WebpushNotification.__init__`. -/
def mkWebpushNotification (title body icon actions badge data direction image
    language renotify require_interaction silent tag timestamp_millis vibrate
    custom_data : Val) : Except PyErr Val := do
  let title ← validate_string title ("title") true
  let body ← validate_string body ("body") true
  let icon ← validate_url icon ("icon") true
  let actions ← validate_list_of_specific_class actions ("actions") isWpActionV
    ("WebpushNotificationAction") true
  let badge ← validate_url badge ("badge") true
  let data ← validate_dict data ("data") true true
  let direction ← validate_string_options direction ("direction")
    ["auto", "ltr", "rtl"] true
  let image ← validate_url image ("image") true
  let language ← validate_string language ("language") true
  let renotify ← validate_bool renotify ("renotify") true
  let require_interaction ← validate_bool require_interaction
    ("require_interaction") true
  let silent ← validate_bool silent ("silent") true
  let tag ← validate_string tag ("tag") true
  let timestamp_millis ← validate_int timestamp_millis ("timestamp_millis") true
  let vibrate ← validate_list vibrate ("vibrate") true true
  let custom_data ← validate_dict custom_data ("custom_data") true true
  return .wpNotification title body icon actions badge data direction image
    language renotify require_interaction silent tag timestamp_millis vibrate
    custom_data

/-- `WebpushFCMOptions.__init__`. -/
def mkWebpushFCMOptions (link : Val) : Except PyErr Val := do
  let l ← validate_url link ("link") true
  return .wpFCMOptions l

/-- `WebpushConfig.__init__`. -/
def mkWebpushConfig (headers data notification fcm_options : Val) :
    Except PyErr Val := do
  let h ← validate_dict headers ("headers") true true
  let d ← validate_dict data ("data") true true
  let n ← validate_specific_class notification ("notification")
    isWpNotificationV ("WebpushNotification") true
  let f ← validate_specific_class fcm_options ("fcm_options") isWpFCMOptionsV
    ("WebpushFCMOptions") true
  return .wpConfig h d n f

/-- `Message.__init__` (also the base-constructor call made by
`SimpleMessage.__init__`; `simple` records the dynamic class). -/
def mkMessage (simple : Bool) (data webpush fcm_options token topic condition :
    Val) : Except PyErr Val := do
  let d ← validate_dict data ("data") true true
  let w ← validate_specific_class webpush ("webpush") isWpConfigV
    ("WebpushConfig") true
  let f ← validate_specific_class fcm_options ("fcm_options") isWpFCMOptionsV
    ("WebpushFCMOptions") true
  let t ← validate_string token ("token") true
  let p ← validate_string topic ("topic") true
  let c ← validate_string condition ("condition") true
  return .message simple d w f t p c

/-- `MulticastMessage.__init__`. -/
def mkMulticastMessage (data webpush fcm_options tokens condition : Val) :
    Except PyErr Val := do
  let d ← validate_dict data ("data") true true
  let w ← validate_specific_class webpush ("webpush") isWpConfigV
    ("WebpushConfig") true
  let f ← validate_specific_class fcm_options ("fcm_options") isWpFCMOptionsV
    ("WebpushFCMOptions") true
  let ts ← validate_list tokens ("tokens") true true
  let c ← validate_string condition ("condition") true
  return .multicastMessage d w f ts c

/-- `SimpleMessage.__init__`: builds a `WebpushNotification` from the flat
fields, wraps it in a `WebpushConfig` with `WebpushFCMOptions(link=...)`,
then delegates to the `Message` constructor. -/
def mkSimpleMessage (title body token topic condition data custom_data headers
    icon image badge link actions direction language renotify
    require_interaction silent tag timestamp_millis vibrate : Val) :
    Except PyErr Val := do
  let notification ← mkWebpushNotification title body icon actions badge .none
    direction image language renotify require_interaction silent tag
    timestamp_millis vibrate custom_data
  let fcmOpts ← mkWebpushFCMOptions link
  let webpush ← mkWebpushConfig headers .none notification fcmOpts
  mkMessage true data webpush .none token topic condition

/- MARK: Serialization (client_code/client_utils.py, DataSerializer) -/

/-- `DataSerializer.serialize`: project the listed attributes of an object
into a mapping, skipping `None` values when `ignore_nulls` holds.  Attribute
values are taken verbatim (`getattr`): there is no recursion into nested
model objects. -/
def serialize (attrs : List (String × Val)) (ignore_nulls : Bool) :
    List (String × Val) :=
  if ignore_nulls then attrs.filter (fun p => !isNoneV p.2) else attrs

/-- The `to_dict` methods of the portable classes: each passes its
attribute-name list to `DataSerializer.serialize` with the default
`ignore_nulls=True`.  Values without a `to_dict` method yield `[]` (never
invoked by the embedded flows). -/
def toDict : Val → List (String × Val)
  | .wpAction a t i => serialize [("action", a), ("title", t), ("icon", i)] true
  | .wpNotification t b i a bd d dir im lg rn ri si tg ts vb cd =>
      serialize [("title", t), ("body", b), ("icon", i), ("actions", a),
        ("badge", bd), ("data", d), ("direction", dir), ("image", im),
        ("language", lg), ("renotify", rn), ("require_interaction", ri),
        ("silent", si), ("tag", tg), ("timestamp_millis", ts),
        ("vibrate", vb), ("custom_data", cd)] true
  | .wpFCMOptions l => serialize [("link", l)] true
  | .wpConfig h d n f =>
      serialize [("headers", h), ("data", d), ("notification", n),
        ("fcm_options", f)] true
  | .message _ d w f t p c =>
      serialize [("data", d), ("webpush", w), ("fcm_options", f),
        ("token", t), ("topic", p), ("condition", c)] true
  | .multicastMessage d w f ts c =>
      serialize [("data", d), ("webpush", w), ("fcm_options", f),
        ("tokens", ts), ("condition", c)] true
  | _ => []

/-- `d.get(k)` on a string-keyed mapping: the value of the first entry with
that key, or `None` when the key is absent. -/
def dictGet : List (String × Val) → String → Val
  | [], _ => .none
  | p :: rest, k => if p.1 = k then p.2 else dictGet rest k

/-- `d[k] = v` on a string-keyed mapping: update the existing entry in
place, else append a new one (Python dict assignment). -/
def dictSet (d : List (String × Val)) (k : String) (v : Val) :
    List (String × Val) :=
  if d.any (fun p => p.1 == k) then
    d.map (fun p => if p.1 == k then (k, v) else p)
  else d ++ [(k, v)]

/- MARK: Server-side compilation (server_code/server.py, FirebaseMessaging)

Compiled `firebase_admin.messaging` objects are external SDK values; they
are embedded as records of the keyword arguments the source passes to their
constructors.  SDK objects nested inside a compiled value (webpush config,
webpush notification, notification actions) are represented by the
`Val.dict` of their keyword arguments. -/

/-- Python dict assignment on the string-to-string dicts built by
`_process_data`: update in place, else append. -/
def sdictInsert (d : List (String × String)) (k v : String) :
    List (String × String) :=
  if d.any (fun p => p.1 == k) then
    d.map (fun p => if p.1 == k then (k, v) else p)
  else d ++ [(k, v)]

/-- One step of the `_process_data` dict comprehension: keep a pair exactly
when key and value are both `str`/`int`/`float` instances, stringifying
both; Python dict construction overwrites duplicate keys in place. -/
def processPair (acc : List (String × String)) (p : Val × Val) :
    List (String × String) :=
  if isPrimV p.1 && isPrimV p.2 then sdictInsert acc (pyStr p.1) (pyStr p.2)
  else acc

/-- `FirebaseMessaging._process_data`: `{}` for any non-dict input
(including `None`), otherwise the filtering/stringifying comprehension. -/
def process_data (data : Val) : List (String × String) :=
  match data with
  | .dict items => items.foldl processPair []
  | _ => []

/-- View a Python value as a string-keyed mapping (used where the source
passes a mapping to an SDK constructor via `**`); non-dict values and
non-string keys do not occur in the embedded flows. -/
def asStrPairs : Val → List (String × Val)
  | .dict xs => xs.filterMap (fun p =>
      match p.1 with
      | .str k => some (k, p.2)
      | _ => Option.none)
  | _ => []

/-- Embed a string-keyed mapping back as a `Val` dict (the record of
keyword arguments of a compiled SDK object). -/
def strDict (l : List (String × Val)) : Val :=
  .dict (l.map (fun p => (Val.str p.1, p.2)))

/-- `FirebaseMessaging._compile_webpush_notification_actions`: collect
`messaging.WebpushNotificationAction(**action.to_dict())` for each
`WebpushNotificationAction` instance in the notification dict's `actions`
entry (`or []` default); an empty result is normalized to `None`. -/
def compile_webpush_notification_actions (nd : List (String × Val)) : Val :=
  let actions := if truthy (dictGet nd ("actions")) then dictGet nd ("actions")
    else .list []
  let fcm_actions :=
    match actions with
    | .list xs => xs.filterMap (fun a =>
        if isWpActionV a then some (strDict (toDict a)) else Option.none)
    | _ => []
  if !fcm_actions.isEmpty then .list fcm_actions else .none

/-- `FirebaseMessaging._compile_webpush_notification`: a
`WebpushNotification` instance is projected through its `to_dict`; a truthy
dict has its `actions` entry replaced by the compiled actions and becomes
`messaging.WebpushNotification(**notification)`; a falsy value compiles to
`None`. -/
def compile_webpush_notification (md : List (String × Val)) : Val :=
  let n0 := dictGet md ("notification")
  let nd := if isWpNotificationV n0 then toDict n0 else asStrPairs n0
  if !nd.isEmpty then
    strDict (dictSet nd ("actions") (compile_webpush_notification_actions nd))
  else .none

/-- `FirebaseMessaging._compile_webpush_config`: analogous, replacing the
`notification` entry with the compiled notification. -/
def compile_webpush_config (md : List (String × Val)) : Val :=
  let w0 := dictGet md ("webpush")
  let wd := if isWpConfigV w0 then toDict w0 else asStrPairs w0
  if !wd.isEmpty then
    strDict (dictSet wd ("notification") (compile_webpush_notification wd))
  else .none

/-- `FirebaseMessaging._compile_fcm_options`. -/
def compile_fcm_options (md : List (String × Val)) : Val :=
  let f0 := dictGet md ("fcm_options")
  let fd := if isWpFCMOptionsV f0 then toDict f0 else asStrPairs f0
  if !fd.isEmpty then strDict fd else .none

/-- The keyword arguments the source passes to `messaging.Message`: note
there is no `condition` argument — `_compile_message` never forwards the
model's `condition` field. -/
structure CompiledMessage where
  data : List (String × String)
  webpush : Val
  fcm_options : Val
  token : Val
  topic : Val

/-- `FirebaseMessaging._compile_message`: project the model message through
`to_dict`, then `token = d.get("token")`,
`topic = None if token else d.get("topic")` (token wins when truthy). -/
def compileMessage (message : Val) : CompiledMessage :=
  let md := toDict message
  let token := dictGet md ("token")
  let topic := if truthy token then Val.none else dictGet md ("topic")
  { data := process_data (dictGet md ("data"))
    webpush := compile_webpush_config md
    fcm_options := compile_fcm_options md
    token := token
    topic := topic }

/-- The keyword arguments the source passes to
`messaging.MulticastMessage`. -/
structure CompiledMulticast where
  data : List (String × String)
  webpush : Val
  fcm_options : Val
  tokens : Val

/-- `FirebaseMessaging._compile_multicast_message`. -/
def compileMulticastMessage (message : Val) : CompiledMulticast :=
  let md := toDict message
  { data := process_data (dictGet md ("data"))
    webpush := compile_webpush_config md
    fcm_options := compile_fcm_options md
    tokens := dictGet md ("tokens") }

/-- `d[k]` lookup on a serialized mapping, as an `Option` (subscripting a
missing key raises in Python). -/
def lookupStr (d : List (String × Val)) (k : String) : Option Val :=
  (d.find? (fun p => p.1 == k)).map (fun p => p.2)

/-- First value for a string key in a `Val`-keyed dict. -/
def valStrKeyGet : List (Val × Val) → String → Option Val
  | [], _ => Option.none
  | p :: rest, k =>
    match p.1 with
    | .str s => if s = k then some p.2 else valStrKeyGet rest k
    | _ => valStrKeyGet rest k

/-- Modelled from the claim text for C1: chained mapping subscripts
`v[k1][k2]…`, defined only while each intermediate value is a Python dict —
subscripting any other value (such as a model object) raises a `TypeError`
in Python, rendered here as `Option.none`. -/
def dictPath : Val → List String → Option Val
  | v, [] => some v
  | .dict xs, k :: ks =>
    match valStrKeyGet xs k with
    | some w => dictPath w ks
    | Option.none => Option.none
  | _, _ :: _ => Option.none

/-- The `WebpushNotification` state stored by
`SimpleMessage(title=T, body=B, token=tok)` with every other argument left
at its default. -/
def simpleNotif (T B : String) : Val :=
  .wpNotification (.str T) (.str B) .none (.list []) .none .none
    (.str ("auto")) .none .none (.bool false) (.bool false) (.bool false)
    .none .none .none .none

/-- The full `Message` state stored by
`SimpleMessage(title=T, body=B, token=tok)` with every other argument left
at its default. -/
def simpleMsg (T B tok : String) : Val :=
  .message true .none
    (.wpConfig .none .none (simpleNotif T B) (.wpFCMOptions .none))
    .none (.str tok) .none .none

/- MARK: Response reconstruction (client_code/messages.py, Response) -/

/-- The validated state of a `Response` object: `success` is a bool,
`message_id` and `exception` are optional strings (the constructor's
validators enforce exactly this shape). -/
structure Response where
  success : Bool
  message_id : Option String
  exception : Option String
deriving DecidableEq

/-- Split `l` at the first occurrence of `sep`: the part before it and the
part after it. -/
def firstSplit (sep : List Char) : List Char → Option (List Char × List Char)
  | [] => Option.none
  | c :: rest =>
    if sep.isPrefixOf (c :: rest) then some ([], (c :: rest).drop sep.length)
    else
      match firstSplit sep rest with
      | some p => some (c :: p.1, p.2)
      | Option.none => Option.none

/-- Fuel-driven splitting loop; each successful split strictly shortens the
remainder (the separator is non-empty at the one call site), so fuel
`l.length + 1` always suffices. -/
def splitAux (sep : List Char) : Nat → List Char → List (List Char)
  | 0, l => [l]
  | fuel + 1, l =>
    match firstSplit sep l with
    | Option.none => [l]
    | some p => p.1 :: splitAux sep fuel p.2

/-- Python `s.split(sep)` for a non-empty separator (Python raises on an
empty separator; the source only splits on `"/messages/"`). -/
def pySplit (sep s : String) : List String :=
  (splitAux sep.data (s.data.length + 1) s.data).map (fun cs => String.mk cs)

/-- `Response.__init__`: validates `success` as a required bool and the two
string fields as optional strings, then stores the typed state (the final
matches read off the shapes the validators have just enforced; an empty
string is stored as `None` by `validate_string`'s truthiness check). -/
def mkResponse (success message_id exception : Val) : Except PyErr Response := do
  let s ← validate_bool success ("success") false
  let m ← validate_string message_id ("message_id") true
  let e ← validate_string exception ("exception") true
  return { success := (match s with | .bool b => b | _ => false)
           message_id := (match m with | .str t => some t | _ => Option.none)
           exception := (match e with | .str t => some t | _ => Option.none) }

/-- The heterogeneous shapes `Response.from_fcm_response` receives from the
underlying send call: a bare string id, a raised exception (carrying its
`str` form), or an SDK response object exposing up to four attributes
(`Option.none` models an absent attribute, whose access raises
`AttributeError` and is caught). -/
inductive FcmInput where
  | str (s : String)
  | exn (msg : String)
  | obj (success message_id exception error : Option Val)

/-- `Response._extract_success`: an absent attribute yields `False`; a
string compares case-insensitively against `"1"`/`"true"`; an int (which
includes Python bools) compares against `1`; anything else falls through to
`False`. -/
def extract_success : Option Val → Bool
  | some (.str s) => s.toLower == "1" || s.toLower == "true"
  | some (.int n) => n == 1
  | some (.bool b) => b
  | some _ => false
  | Option.none => false

/-- `Response._extract_attribute`: the attribute value, or `None` when
absent. -/
def extract_attribute (a : Option Val) : Val :=
  a.getD .none

/-- `Response.from_fcm_response`. -/
def from_fcm_response (r : FcmInput) : Except PyErr Response :=
  match r with
  | .str s =>
    let parts := pySplit ("/messages/") s
    if h : 2 ≤ parts.length then
      mkResponse (.bool true) (.str (parts.get ⟨1, by omega⟩)) .none
    else
      mkResponse (.bool false) .none .none
  | .exn m => mkResponse (.bool false) .none (.str m)
  | .obj succ mid exc err =>
    let success := extract_success succ
    let message_id := extract_attribute mid
    let exception0 :=
      if truthy (extract_attribute exc) then extract_attribute exc
      else extract_attribute err
    let exception :=
      if isStrV exception0 || isNoneV exception0 then exception0
      else .str (pyStr exception0)
    mkResponse (.bool success) message_id exception

/-- Modelled from the spec for C3: "parse the id after the last
`/messages/` segment", for comparison with the source behaviour. -/
def specLastSegmentId (s : String) : Option String :=
  (pySplit ("/messages/") s).getLast?

/- MARK: Sending (server_code/server.py, FirebaseMessaging)

The underlying `firebase_admin.messaging.send*` calls are external: each is
a parameter mapping the compiled message(s) to either a raised exception
(its `str` form) or an SDK response value. -/

/-- The attributes `BatchResponse.from_fcm_response` reads defensively from
the SDK batch response (`Option.none` models an absent attribute). -/
structure FcmBatch where
  responses : Option (List FcmInput)
  success_count : Option Int
  failure_count : Option Int

/-- The validated state of a `BatchResponse` object.  The constructor's
`validate_list(..., strings_only=False)` and `validate_int` checks are
vacuous on this typed state. -/
structure BatchResponse where
  responses : List Response
  success_count : Int
  failure_count : Int
deriving DecidableEq

/-- `BatchResponse.from_fcm_response`: absent attributes default to `[]`,
`0`, `0`; each item is rebuilt through `Response.from_fcm_response` (whose
exceptions propagate — there is no try around the comprehension). -/
def batch_from_fcm_response (b : FcmBatch) : Except PyErr BatchResponse := do
  let rs ← (b.responses.getD []).mapM from_fcm_response
  return { responses := rs
           success_count := b.success_count.getD 0
           failure_count := b.failure_count.getD 0 }

/-- `FirebaseMessaging.send`: a type error for anything outside the
`Message`/`SimpleMessage` family, compilation outside the try, then the
send call and response reconstruction inside a `try` whose handler folds
the exception into a failed `Response`. -/
def send (message : Val) (sdkSend : CompiledMessage → Except String FcmInput) :
    Except PyErr Response :=
  if !isMessageV message then
    .error (.typeError
      ("The message must be an instance of Message or SimpleMessage."))
  else
    match sdkSend (compileMessage message) with
    | .ok r =>
      match from_fcm_response r with
      | .ok resp => .ok resp
      | .error e => from_fcm_response (.exn (PyErr.msgStr e))
    | .error e => from_fcm_response (.exn e)

/-- `FirebaseMessaging.send_all`: type check, per-message compilation, then
the batch send call with no surrounding try — an exception from the
underlying call propagates to the caller. -/
def send_all (messages : List Val)
    (sdkSendAll : List CompiledMessage → Except String FcmBatch) :
    Except PyErr BatchResponse :=
  if !messages.all isMessageV then
    .error (.typeError
      ("The messages must be instances of Message or SimpleMessage."))
  else
    match sdkSendAll (messages.map compileMessage) with
    | .ok r => batch_from_fcm_response r
    | .error e => .error (.exn e)

/-- `FirebaseMessaging.send_multicast`: same shape as `send_all` for a
`MulticastMessage`. -/
def send_multicast (message : Val)
    (sdkSendMulticast : CompiledMulticast → Except String FcmBatch) :
    Except PyErr BatchResponse :=
  if !isMulticastV message then
    .error (.typeError ("The message must be an instance of MulticastMessage."))
  else
    match sdkSendMulticast (compileMulticastMessage message) with
    | .ok r => batch_from_fcm_response r
    | .error e => .error (.exn e)

/- MARK: Service-account credentials (server_code/server_utils.py)

JSON texts are handled as their character lists.  `json.dumps` and
`json.loads` are Python standard-library collaborators, not code of this
repository; they are modelled below for the only shape the repository
round-trips — a flat JSON object with string values — while the
trailing-comma regex and the field handling `from_json_string` adds are
translated from the source. -/

/-- The `FCMServiceAccountCredentials` dataclass. -/
structure FCMServiceAccountCredentials where
  type : String
  project_id : String
  private_key_id : String
  private_key : String
  client_email : String
  client_id : String
  auth_uri : String
  token_uri : String
  auth_provider_x509_cert_url : String
  client_x509_cert_url : String
  universe_domain : String
deriving DecidableEq

/-- `FCMServiceAccountCredentials.to_dict`: the 11-field mapping, in source
order. -/
def FCMServiceAccountCredentials.to_dict (c : FCMServiceAccountCredentials) :
    List (String × String) :=
  [("type", c.type), ("project_id", c.project_id),
   ("private_key_id", c.private_key_id), ("private_key", c.private_key),
   ("client_email", c.client_email), ("client_id", c.client_id),
   ("auth_uri", c.auth_uri), ("token_uri", c.token_uri),
   ("auth_provider_x509_cert_url", c.auth_provider_x509_cert_url),
   ("client_x509_cert_url", c.client_x509_cert_url),
   ("universe_domain", c.universe_domain)]

/-- Modelled from the spec (`json.dumps`, Python stdlib): the JSON string
escape of one character, covering the escapes credential material
exercises; other characters are emitted verbatim. -/
def escChar (c : Char) : List Char :=
  if c = '\\' then ['\\', '\\']
  else if c = '"' then ['\\', '"']
  else if c = '\n' then ['\\', 'n']
  else if c = '\t' then ['\\', 't']
  else if c = '\r' then ['\\', 'r']
  else [c]

/-- The escaped body of a JSON string literal followed by its closing quote
and then `tail`. -/
def escBody (tail : List Char) : List Char → List Char
  | [] => '"' :: tail
  | c :: cs => escChar c ++ escBody tail cs

/-- A complete JSON string literal for `s`, followed by `tail`. -/
def strLit (s : String) (tail : List Char) : List Char :=
  '"' :: escBody tail s.data

/-- The members of a flat JSON object with `": "` and `", "` separators
(Python `json.dumps` defaults), followed by `tail`. -/
def membersInto : List (String × String) → List Char → List Char
  | [], tail => tail
  | [(k, v)], tail => strLit k (':' :: ' ' :: strLit v tail)
  | (k, v) :: rest, tail =>
    strLit k (':' :: ' ' :: strLit v (',' :: ' ' :: membersInto rest tail))

/-- Modelled from the spec (`json.dumps`, Python stdlib): serialize a flat
string-valued mapping as a JSON object. -/
def jsonDumps (d : List (String × String)) : List Char :=
  '{' :: membersInto d ['}']

/-- The claim's injection: a trailing comma inserted before the final
closing brace of a serialized object. -/
def injectTrailingComma (l : List Char) : List Char :=
  l.dropLast ++ [',', '}']

/-- The lookahead `\s*(?=}|])` of the repair regex, checked after a
comma. -/
def trailPatAt : List Char → Bool
  | [] => false
  | c :: rest =>
    if c = '}' || c = ']' then true
    else if isPySpace c then trailPatAt rest
    else false

/-- `re.sub(r",\s*(?=}|])", "", s)` from
`FCMServiceAccountCredentials.from_json_string`: every comma followed by
optional whitespace and a closing brace/bracket is deleted, scanning left
to right with matches not overlapping; the lookahead is not consumed.  The
regex sees the whole JSON text, string literal contents included. -/
def stripTrailingCommas : List Char → List Char
  | [] => []
  | c :: rest =>
    if c = ',' && trailPatAt rest then stripTrailingCommas rest
    else c :: stripTrailingCommas rest

/-- Python `str.strip()` (ASCII whitespace model). -/
def pyStrip (l : List Char) : List Char :=
  ((l.dropWhile isPySpace).reverse.dropWhile isPySpace).reverse

/-- Modelled from the spec (`json.loads`, Python stdlib): inverse of
`escChar` on the character after a backslash. -/
def unescChar (c : Char) : Option Char :=
  if c = '\\' then some '\\'
  else if c = '"' then some '"'
  else if c = 'n' then some '\n'
  else if c = 't' then some '\t'
  else if c = 'r' then some '\r'
  else Option.none

/-- Modelled from the spec (`json.loads`, Python stdlib): parse the body of
a JSON string literal up to its closing quote, returning the decoded
characters and the rest of the input. -/
def parseStringBody : List Char → Option (List Char × List Char)
  | [] => Option.none
  | '"' :: rest => some ([], rest)
  | '\\' :: [] => Option.none
  | '\\' :: e :: rest2 =>
    (match unescChar e, parseStringBody rest2 with
      | some u, some p => some (u :: p.1, p.2)
      | _, _ => Option.none)
  | c :: rest =>
    (match parseStringBody rest with
      | some p => some (c :: p.1, p.2)
      | Option.none => Option.none)

/-- Modelled from the spec (`json.loads`, Python stdlib): parse the members
of a flat string-valued object in the canonical `jsonDumps` layout, ending
at the closing brace.  Each parsed member consumes input, so fuel
`l.length + 1` suffices. -/
def parseMembersAux : Nat → List Char → Option (List (String × String) × List Char)
  | 0, _ => Option.none
  | fuel + 1, l =>
    match l with
    | '"' :: rest =>
      match parseStringBody rest with
      | some (k, r1) =>
        match r1 with
        | ':' :: ' ' :: '"' :: r2 =>
          match parseStringBody r2 with
          | some (v, r3) =>
            match r3 with
            | ',' :: ' ' :: r4 =>
              match parseMembersAux fuel r4 with
              | some (kvs, r5) =>
                some ((String.mk k, String.mk v) :: kvs, r5)
              | Option.none => Option.none
            | '}' :: r4 => some ([(String.mk k, String.mk v)], r4)
            | _ => Option.none
          | Option.none => Option.none
        | _ => Option.none
      | Option.none => Option.none
    | _ => Option.none

/-- Modelled from the spec (`json.loads`, Python stdlib): parse a complete
flat string-valued JSON object, requiring the input to be fully
consumed. -/
def parseFlatObj (l : List Char) : Option (List (String × String)) :=
  match l with
  | '{' :: rest =>
    match parseMembersAux (rest.length + 1) rest with
    | some (kvs, []) => some kvs
    | _ => Option.none
  | _ => Option.none

/-- First value for a key in a parsed flat object. -/
def lookupS : List (String × String) → String → Option String
  | [], _ => Option.none
  | p :: rest, k => if p.1 = k then some p.2 else lookupS rest k

/-- `FCMServiceAccountCredentials.from_json_string`: strip trailing commas
with the repair regex, `str.strip()` the result, parse it, and call the
dataclass constructor via `cls(**json_dict)` — which requires exactly the
11 dataclass fields (a parse failure raises `ValueError("Invalid JSON
string")`; any other failure is wrapped by the source's generic handler
into `Exception("Error creating temporary file")`). -/
def from_json_string (l : List Char) :
    Except PyErr FCMServiceAccountCredentials :=
  match parseFlatObj (pyStrip (stripTrailingCommas l)) with
  | Option.none => .error (.valueError ("Invalid JSON string"))
  | some kvs =>
    if kvs.length = 11 then
      match lookupS kvs ("type"), lookupS kvs ("project_id"),
        lookupS kvs ("private_key_id"), lookupS kvs ("private_key"),
        lookupS kvs ("client_email"), lookupS kvs ("client_id"),
        lookupS kvs ("auth_uri"), lookupS kvs ("token_uri"),
        lookupS kvs ("auth_provider_x509_cert_url"),
        lookupS kvs ("client_x509_cert_url"),
        lookupS kvs ("universe_domain") with
      | some f1, some f2, some f3, some f4, some f5, some f6, some f7,
        some f8, some f9, some f10, some f11 =>
        .ok ⟨f1, f2, f3, f4, f5, f6, f7, f8, f9, f10, f11⟩
      | _, _, _, _, _, _, _, _, _, _, _ =>
        .error (.exn ("Error creating temporary file"))
    else .error (.exn ("Error creating temporary file"))

end AF

namespace AF

/-- C4: for every validator, a `None` value with `optional=True` yields the
empty sentinel — `None` for all validators except the two list-of-X
validators, which yield `[]` — and a `None` value with `optional=False`
raises a `ValueError` naming the field as required. -/
theorem validators_none_policy (p : String) (so : Bool) (opts : List String)
    (cls : Val → Bool) (cn : String) :
    validate_string .none p true = .ok .none ∧
    validate_string .none p false = .error (.valueError (p ++ " is required.")) ∧
    validate_int .none p true = .ok .none ∧
    validate_int .none p false = .error (.valueError (p ++ " is required.")) ∧
    validate_list .none p so true = .ok .none ∧
    validate_list .none p so false = .error (.valueError (p ++ " is required.")) ∧
    validate_bool .none p true = .ok .none ∧
    validate_bool .none p false = .error (.valueError (p ++ " is required.")) ∧
    validate_dict .none p so true = .ok .none ∧
    validate_dict .none p so false = .error (.valueError (p ++ " is required.")) ∧
    validate_url .none p true = .ok .none ∧
    validate_url .none p false = .error (.valueError (p ++ " is required.")) ∧
    validate_string_options .none p opts true = .ok .none ∧
    validate_string_options .none p opts false =
      .error (.valueError (p ++ " is required.")) ∧
    validate_callable .none p true = .ok .none ∧
    validate_callable .none p false = .error (.valueError (p ++ " is required.")) ∧
    validate_list_of_strings .none p true = .ok (.list []) ∧
    validate_list_of_strings .none p false =
      .error (.valueError (p ++ " is required.")) ∧
    validate_specific_class .none p cls cn true = .ok .none ∧
    validate_specific_class .none p cls cn false =
      .error (.valueError (p ++ " is required.")) ∧
    validate_list_of_specific_class .none p cls cn true = .ok (.list []) ∧
    validate_list_of_specific_class .none p cls cn false =
      .error (.valueError (p ++ " is required.")) := by
  refine ⟨rfl, rfl, rfl, rfl, rfl, rfl, rfl, rfl, rfl, rfl, rfl, rfl, rfl, rfl,
    rfl, rfl, rfl, rfl, ?_, ?_, rfl, rfl⟩ <;>
    simp [validate_specific_class, isNoneV, truthy]

/-- C9: `validate_list_of_strings` on any non-empty string returns the
one-element list containing that string, for every property name and either
`optional` flag: a bare string is silently coerced to a list of strings. -/
theorem validate_list_of_strings_coerces_string (s p : String) (opt : Bool)
    (h : s ≠ "") :
    validate_list_of_strings (.str s) p opt = .ok (.list [.str s]) := by
  unfold validate_list_of_strings
  simp [isNoneV, truthy, isStrV, h]

/-- C9 witness: the coercion evaluated at the concrete topic string. -/
theorem validate_list_of_strings_coerces_string_witness :
    (("news" : String) ≠ "") ∧
    validate_list_of_strings (.str ("news")) ("topics") true =
      .ok (.list [.str ("news")]) :=
  ⟨by decide, validate_list_of_strings_coerces_string ("news") ("topics") true
    (by decide)⟩

/-- C8 counterexample: the source pattern `^https?:\/\/[^\s\/$?.#].[^\s]*$`
is not the claimed `^https?://[^\s/$?#.][^\s]*$`.  The bare `.` in the
source is a wildcard requiring a second character after the scheme, so
`"http://a"` matches the claimed pattern but `validate_url` rejects it,
while `"http://a b"` fails the claimed pattern (space) but is accepted by
`validate_url` (the wildcard consumes the space). -/
theorem validate_url_cex :
    urlMatchSpec ("http://a") = true ∧
    validate_url (.str ("http://a")) ("link") true =
      .error (.valueError ("link must be a valid URL.")) ∧
    urlMatchSpec ("http://a b") = false ∧
    validate_url (.str ("http://a b")) ("link") true =
      .ok (.str ("http://a b")) :=
  ⟨rfl, rfl, rfl, rfl⟩

/-- Helper: `dictGet` commutes with the null-dropping filter of `serialize`
when every entry carrying the key has a non-null value. -/
theorem dictGet_filter_eq (l : List (String × Val)) (k : String)
    (h : ∀ p ∈ l, p.1 = k → isNoneV p.2 = false) :
    dictGet (l.filter (fun p => !isNoneV p.2)) k = dictGet l k := by
  induction l with
  | nil => rfl
  | cons a l ih =>
    have ih := ih (fun p hp hpk => h p (List.mem_cons_of_mem a hp) hpk)
    by_cases hk : a.1 = k
    · have hv : isNoneV a.2 = false := h a (List.mem_cons_self a l) hk
      simp [List.filter_cons, hv, dictGet, hk]
    · cases hn : isNoneV a.2 <;> simp [List.filter_cons, hn, dictGet, hk, ih]

/-- Helper: `dictGet` after the null-dropping filter yields `None` when
every entry carrying the key has a null value. -/
theorem dictGet_filter_none (l : List (String × Val)) (k : String)
    (h : ∀ p ∈ l, p.1 = k → isNoneV p.2 = true) :
    dictGet (l.filter (fun p => !isNoneV p.2)) k = .none := by
  induction l with
  | nil => rfl
  | cons a l ih =>
    have ih := ih (fun p hp hpk => h p (List.mem_cons_of_mem a hp) hpk)
    by_cases hk : a.1 = k
    · have hv : isNoneV a.2 = true := h a (List.mem_cons_self a l) hk
      simp [List.filter_cons, hv, dictGet, hk, ih]
    · cases hn : isNoneV a.2 <;> simp [List.filter_cons, hn, dictGet, hk, ih]

/-- Helper: the `token` entry read back from a serialized message equals the
stored attribute (also when it is `None`, since the entry is then omitted
and `get` defaults to `None`). -/
theorem message_get_token (s : Bool) (d w f tok top c : Val) :
    dictGet (toDict (.message s d w f tok top c)) ("token") = tok := by
  show dictGet (List.filter _ _) _ = _
  cases hn : isNoneV tok
  · rw [dictGet_filter_eq]
    · simp [dictGet]
    · intro q hq hqk
      simp only [List.mem_cons, List.not_mem_nil, or_false] at hq
      rcases hq with rfl | rfl | rfl | rfl | rfl | rfl <;> simp_all
  · have h0 : tok = Val.none := by
      cases tok <;> first | rfl | simp [isNoneV] at hn
    subst h0
    apply dictGet_filter_none
    intro q hq hqk
    simp only [List.mem_cons, List.not_mem_nil, or_false] at hq
    rcases hq with rfl | rfl | rfl | rfl | rfl | rfl <;> simp_all

/-- Helper: the `topic` entry read back from a serialized message equals the
stored attribute. -/
theorem message_get_topic (s : Bool) (d w f tok top c : Val) :
    dictGet (toDict (.message s d w f tok top c)) ("topic") = top := by
  show dictGet (List.filter _ _) _ = _
  cases hn : isNoneV top
  · rw [dictGet_filter_eq]
    · simp [dictGet]
    · intro q hq hqk
      simp only [List.mem_cons, List.not_mem_nil, or_false] at hq
      rcases hq with rfl | rfl | rfl | rfl | rfl | rfl <;> simp_all
  · have h0 : top = Val.none := by
      cases top <;> first | rfl | simp [isNoneV] at hn
    subst h0
    apply dictGet_filter_none
    intro q hq hqk
    simp only [List.mem_cons, List.not_mem_nil, or_false] at hq
    rcases hq with rfl | rfl | rfl | rfl | rfl | rfl <;> simp_all

/-- Helper: the `data` entry read back from a serialized message equals the
stored attribute. -/
theorem message_get_data (s : Bool) (d w f tok top c : Val) :
    dictGet (toDict (.message s d w f tok top c)) ("data") = d := by
  show dictGet (List.filter _ _) _ = _
  cases hn : isNoneV d
  · rw [dictGet_filter_eq]
    · simp [dictGet]
    · intro q hq hqk
      simp only [List.mem_cons, List.not_mem_nil, or_false] at hq
      rcases hq with rfl | rfl | rfl | rfl | rfl | rfl <;> simp_all
  · have h0 : d = Val.none := by
      cases d <;> first | rfl | simp [isNoneV] at hn
    subst h0
    apply dictGet_filter_none
    intro q hq hqk
    simp only [List.mem_cons, List.not_mem_nil, or_false] at hq
    rcases hq with rfl | rfl | rfl | rfl | rfl | rfl <;> simp_all

/-- Helper: the `data` entry read back from a serialized multicast message
equals the stored attribute. -/
theorem multicast_get_data (d w f ts c : Val) :
    dictGet (toDict (.multicastMessage d w f ts c)) ("data") = d := by
  show dictGet (List.filter _ _) _ = _
  cases hn : isNoneV d
  · rw [dictGet_filter_eq]
    · simp [dictGet]
    · intro q hq hqk
      simp only [List.mem_cons, List.not_mem_nil, or_false] at hq
      rcases hq with rfl | rfl | rfl | rfl | rfl <;> simp_all
  · have h0 : d = Val.none := by
      cases d <;> first | rfl | simp [isNoneV] at hn
    subst h0
    apply dictGet_filter_none
    intro q hq hqk
    simp only [List.mem_cons, List.not_mem_nil, or_false] at hq
    rcases hq with rfl | rfl | rfl | rfl | rfl <;> simp_all

/-- C5 counterexample: a `Message` constructed with only `condition` set
compiles to admin-SDK keyword arguments carrying neither token nor topic
(and `_compile_message` passes no `condition` argument at all), so it is
not the case that exactly one of token/topic/condition is meaningful in
every compiled message. -/
theorem compile_condition_only_cex :
    mkMessage false .none .none .none .none .none (.str ("weather")) =
      .ok (.message false .none .none .none .none .none (.str ("weather"))) ∧
    (compileMessage
      (.message false .none .none .none .none .none (.str ("weather")))).token =
      .none ∧
    (compileMessage
      (.message false .none .none .none .none .none (.str ("weather")))).topic =
      .none :=
  ⟨rfl, rfl, rfl⟩

/-- C5 amended: at most one of token/topic is carried by the compiled
message, with token taking precedence — for every message whose stored
token is a (necessarily non-empty) string, the compiled keyword arguments
carry that token and a `None` topic, whatever the stored topic is; the
model's `condition` is never forwarded by `_compile_message`. -/
theorem compile_token_precedence (s : Bool) (d w f c : Val) (t p : String)
    (ht : t ≠ "") :
    (compileMessage (.message s d w f (.str t) (.str p) c)).token = .str t ∧
    (compileMessage (.message s d w f (.str t) (.str p) c)).topic = .none := by
  have htok := message_get_token s d w f (.str t) (.str p) c
  constructor
  · show dictGet (toDict (.message s d w f (.str t) (.str p) c)) ("token") = _
    exact htok
  · show (if truthy (dictGet (toDict (.message s d w f (.str t) (.str p) c))
      ("token")) then Val.none else _) = Val.none
    rw [htok]
    simp [truthy, ht]

/-- C5 witness: token precedence at a concrete message carrying both a
token and a topic. -/
theorem compile_token_precedence_witness :
    (("tok1" : String) ≠ "") ∧
    (compileMessage (.message false .none .none .none (.str ("tok1"))
      (.str ("sports")) .none)).token = .str ("tok1") ∧
    (compileMessage (.message false .none .none .none (.str ("tok1"))
      (.str ("sports")) .none)).topic = .none :=
  ⟨by decide,
    (compile_token_precedence false .none .none .none .none ("tok1") ("sports")
      (by decide)).1,
    (compile_token_precedence false .none .none .none .none ("tok1") ("sports")
      (by decide)).2⟩

/-- C10: `_process_data` maps every non-dict value — in particular `None`,
the stored value of an unset `data` field — to the empty mapping, so a
message or multicast message with no data compiles with `data = {}` rather
than an absent field. -/
theorem process_data_defaults_empty :
    (∀ v : Val, isDictV v = false → process_data v = []) ∧
    (∀ (s : Bool) (w f tok top c : Val),
      (compileMessage (.message s .none w f tok top c)).data = []) ∧
    (∀ w f ts c : Val,
      (compileMulticastMessage (.multicastMessage .none w f ts c)).data = []) := by
  refine ⟨?_, ?_, ?_⟩
  · intro v hv
    cases v <;> simp_all [process_data, isDictV]
  · intro s w f tok top c
    show process_data (dictGet (toDict (.message s .none w f tok top c))
      ("data")) = []
    rw [message_get_data]
    rfl
  · intro w f ts c
    show process_data (dictGet (toDict (.multicastMessage .none w f ts c))
      ("data")) = []
    rw [multicast_get_data]
    rfl

/-- C10 witness: evaluated at a concrete non-dict value and concrete
messages with unset data. -/
theorem process_data_defaults_empty_witness :
    isDictV (.str ("x")) = false ∧
    process_data (.str ("x")) = [] ∧
    (compileMessage (.message false .none .none .none (.str ("tok2")) .none
      .none)).data = [] ∧
    (compileMulticastMessage (.multicastMessage .none .none .none
      (.list [.str ("tok3")]) .none)).data = [] :=
  ⟨rfl, process_data_defaults_empty.1 (.str ("x")) rfl,
    process_data_defaults_empty.2.1 false .none .none (.str ("tok2")) .none .none,
    process_data_defaults_empty.2.2 .none .none (.list [.str ("tok3")]) .none⟩

/-- Helper: inserting a fresh key into a string dict appends it. -/
theorem sdictInsert_fresh (d : List (String × String)) (k v : String)
    (h : d.all (fun q => !(q.1 == k)) = true) :
    sdictInsert d k v = d ++ [(k, v)] := by
  have han : d.any (fun q => q.1 == k) = false := by
    cases han : d.any (fun q => q.1 == k) with
    | false => rfl
    | true =>
      obtain ⟨q, hq, hqk⟩ := List.any_eq_true.mp han
      have := List.all_eq_true.mp h q hq
      simp [hqk] at this
  simp [sdictInsert, han]

/-- Helper: the `_process_data` comprehension over pairwise-fresh keys is
filter-then-stringify. -/
theorem foldl_processPair_eq (items : List (Val × Val)) :
    ∀ acc : List (String × String),
    (∀ k ∈ (items.filter (fun p => isPrimV p.1 && isPrimV p.2)).map
        (fun p => pyStr p.1), acc.all (fun q => !(q.1 == k)) = true) →
    ((items.filter (fun p => isPrimV p.1 && isPrimV p.2)).map
        (fun p => pyStr p.1)).Nodup →
    items.foldl processPair acc =
      acc ++ (items.filter (fun p => isPrimV p.1 && isPrimV p.2)).map
        (fun p => (pyStr p.1, pyStr p.2)) := by
  induction items with
  | nil => intro acc _ _; simp
  | cons p items ih =>
    intro acc hdisj hnd
    cases hp : (isPrimV p.1 && isPrimV p.2) with
    | true =>
      have hfe : List.filter (fun q => isPrimV q.1 && isPrimV q.2) (p :: items) =
          p :: List.filter (fun q => isPrimV q.1 && isPrimV q.2) items := by
        simp [List.filter_cons, hp]
      rw [hfe] at hnd hdisj ⊢
      simp only [List.map_cons] at hnd hdisj ⊢
      have hndc := List.nodup_cons.mp hnd
      have hstep : processPair acc p = acc ++ [(pyStr p.1, pyStr p.2)] := by
        unfold processPair
        rw [if_pos hp]
        exact sdictInsert_fresh _ _ _ (hdisj (pyStr p.1) (List.mem_cons_self _ _))
      rw [List.foldl_cons, hstep, ih (acc ++ [(pyStr p.1, pyStr p.2)]) ?_ hndc.2]
      · simp
      · intro k hk
        rw [List.all_append]
        have hacc := hdisj k (List.mem_cons_of_mem _ hk)
        have hfresh : (pyStr p.1 == k) = false := by
          rw [beq_eq_false_iff_ne]
          intro hcontra
          subst hcontra
          exact hndc.1 hk
        simp [hacc, hfresh]
    | false =>
      have hfe : List.filter (fun q => isPrimV q.1 && isPrimV q.2) (p :: items) =
          List.filter (fun q => isPrimV q.1 && isPrimV q.2) items := by
        simp [List.filter_cons, hp]
      rw [hfe] at hnd hdisj ⊢
      have hstep : processPair acc p = acc := by
        simp [processPair, hp]
      rw [List.foldl_cons, hstep]
      exact ih acc hdisj hnd

/-- C6: compiling a data mapping drops every pair whose key or value is not
a string/int/float and stringifies the remaining keys and values (stated
for mappings whose kept stringified keys are pairwise distinct, dict
overwrite being irrelevant then); in particular `{"count": 3}` compiles to
`{"count": "3"}` and a nested-list-valued pair is absent. -/
theorem process_data_drop_stringify :
    process_data (.dict [(.str ("count"), .int 3)]) = [(("count"), ("3"))] ∧
    (∀ items : List (Val × Val),
      ((items.filter (fun p => isPrimV p.1 && isPrimV p.2)).map
          (fun p => pyStr p.1)).Nodup →
      process_data (.dict items) =
        (items.filter (fun p => isPrimV p.1 && isPrimV p.2)).map
          (fun p => (pyStr p.1, pyStr p.2))) := by
  constructor
  · rfl
  · intro items hnd
    have h := foldl_processPair_eq items [] (fun k _ => rfl) hnd
    simpa [process_data] using h

/-- C6 witness: evaluated on a mapping holding an int-valued pair and a
nested-list-valued pair. -/
theorem process_data_drop_stringify_witness :
    ((([((Val.str ("count")), (Val.int 3)),
        ((Val.str ("note")), (Val.list [Val.int 1]))].filter
          (fun p => isPrimV p.1 && isPrimV p.2)).map
          (fun p => pyStr p.1)).Nodup) ∧
    process_data (.dict [((Val.str ("count")), (Val.int 3)),
        ((Val.str ("note")), (Val.list [Val.int 1]))]) =
      [(("count"), ("3"))] := by
  refine ⟨by decide, ?_⟩
  have h := process_data_drop_stringify.2
    [((Val.str ("count")), (Val.int 3)),
     ((Val.str ("note")), (Val.list [Val.int 1]))] (by decide)
  simpa using h

/-- C8 amended: for every present string value, `validate_url` accepts
exactly the strings matching the source pattern
`^https?:\/\/[^\s\/$?.#].[^\s]*$` — scheme `http` or `https`, `://`, one
character outside `\s/$?.#`, one further arbitrary non-newline character,
then non-whitespace characters to the end (Python `$` also tolerating one
final newline) — and raises an invalid-format `ValueError` naming the field
for every other string. -/
theorem validate_url_accepts_iff_code_pattern (s p : String) (opt : Bool) :
    validate_url (.str s) p opt =
      (if urlMatchCode s then .ok (.str s)
       else .error (.valueError (p ++ " must be a valid URL."))) := by
  unfold validate_url
  cases h : urlMatchCode s <;> simp [isNoneV, h]

/-- Helper: `validate_string` on a non-empty string with `optional=True`
returns the string unchanged. -/
theorem validate_string_str_ok (t p : String) (h : t ≠ "") :
    validate_string (.str t) p true = .ok (.str t) := by
  simp [validate_string, isNoneV, truthy, isStrV, h]

/-- C1 counterexample: `SimpleMessage(title="T", body="B", token="tok")`
constructs successfully, but its `to_dict()` carries the `WebpushConfig`
object itself under `webpush` — not a mapping — so the claimed chained
subscription `to_dict()["webpush"]["notification"]["title"]` does not reach
`"T"` (in Python it raises a `TypeError`): `to_dict` does not recurse into
nested model fields. -/
theorem simpleMessage_toDict_cex :
    mkSimpleMessage (.str ("T")) (.str ("B")) (.str ("tok")) .none .none .none
      .none .none .none .none .none .none .none (.str ("auto")) .none
      (.bool false) (.bool false) (.bool false) .none .none .none =
      .ok (simpleMsg ("T") ("B") ("tok")) ∧
    lookupStr (toDict (simpleMsg ("T") ("B") ("tok"))) ("webpush") =
      some (.wpConfig .none .none (simpleNotif ("T") ("B"))
        (.wpFCMOptions .none)) ∧
    isDictV (.wpConfig .none .none (simpleNotif ("T") ("B"))
      (.wpFCMOptions .none)) = false ∧
    dictPath (.wpConfig .none .none (simpleNotif ("T") ("B"))
      (.wpFCMOptions .none)) [("notification"), ("title")] = Option.none :=
  ⟨rfl, rfl, rfl, rfl⟩

/-- C1 amended: `to_dict` projects the listed attributes verbatim and does
not recurse: for every `SimpleMessage(title=T, body=B, token=tok)` (with
the three strings non-empty), `to_dict()` maps `webpush` to the stored
`WebpushConfig` object itself, and the title is recovered only by
explicitly invoking the nested objects' own projections:
`to_dict()` of the webpush object maps `notification` to the notification
object, whose own `to_dict()` maps `title` to `T`.  Null-valued fields are
omitted (`ignore_nulls` default), and projection never mutates the
object (it is a pure function of the stored state). -/
theorem simpleMessage_toDict_no_recursion (T B tok : String) (hT : T ≠ "")
    (hB : B ≠ "") (htok : tok ≠ "") :
    mkSimpleMessage (.str T) (.str B) (.str tok) .none .none .none .none .none
      .none .none .none .none .none (.str ("auto")) .none (.bool false)
      (.bool false) (.bool false) .none .none .none =
      .ok (simpleMsg T B tok) ∧
    toDict (simpleMsg T B tok) =
      [(("webpush"),
        .wpConfig .none .none (simpleNotif T B) (.wpFCMOptions .none)),
       (("token"), .str tok)] ∧
    toDict (.wpConfig .none .none (simpleNotif T B) (.wpFCMOptions .none)) =
      [(("notification"), simpleNotif T B),
       (("fcm_options"), .wpFCMOptions .none)] ∧
    dictGet (toDict (simpleNotif T B)) ("title") = .str T := by
  have eT := validate_string_str_ok T ("title") hT
  have eB := validate_string_str_ok B ("body") hB
  have etok := validate_string_str_ok tok ("token") htok
  refine ⟨?_, rfl, rfl, rfl⟩
  simp only [mkSimpleMessage, mkWebpushNotification, mkWebpushFCMOptions,
    mkWebpushConfig, mkMessage, eT, eB, etok, simpleMsg, simpleNotif]
  rfl

/-- Helper: `validate_string` with `optional=True` succeeds on any string
(empty strings are normalized to `None`). -/
theorem validate_string_str_any (t p : String) :
    ∃ r, validate_string (.str t) p true = .ok r := by
  by_cases h : t = ""
  · exact ⟨.none, by simp [validate_string, isNoneV, truthy, h]⟩
  · exact ⟨.str t, validate_string_str_ok t p h⟩

/-- Helper: `validate_string` with `optional=True` on a string-or-`None`
value returns `None` or a stored string. -/
theorem validate_string_opt_cases (v : Val) (p : String)
    (h : isStrV v = true ∨ isNoneV v = true) :
    validate_string v p true = .ok .none ∨
    ∃ t, validate_string v p true = .ok (.str t) := by
  rcases h with h | h
  · cases v <;> simp [isStrV] at h
    rename_i t
    by_cases ht : t = ""
    · left
      simp [validate_string, isNoneV, truthy, ht]
    · right
      exact ⟨t, validate_string_str_ok t p ht⟩
  · cases v <;> simp [isNoneV] at h
    left
    rfl

/-- Helper: the `Response` constructor succeeds whenever `message_id` and
`exception` are strings or `None`. -/
theorem mkResponse_ok_of (success : Bool) (m e : Val)
    (hm : isStrV m = true ∨ isNoneV m = true)
    (he : isStrV e = true ∨ isNoneV e = true) :
    ∃ resp, mkResponse (.bool success) m e = .ok resp := by
  have hvb : validate_bool (.bool success) ("success") false =
      .ok (.bool success) := rfl
  rcases validate_string_opt_cases m ("message_id") hm with hrm | ⟨tm, hrm⟩ <;>
    rcases validate_string_opt_cases e ("exception") he with hre | ⟨te, hre⟩
  · exact ⟨⟨success, Option.none, Option.none⟩, by
      simp [mkResponse, hvb, hrm, hre, Bind.bind, Except.bind, Pure.pure,
        Except.pure]⟩
  · exact ⟨⟨success, Option.none, some te⟩, by
      simp [mkResponse, hvb, hrm, hre, Bind.bind, Except.bind, Pure.pure,
        Except.pure]⟩
  · exact ⟨⟨success, some tm, Option.none⟩, by
      simp [mkResponse, hvb, hrm, hre, Bind.bind, Except.bind, Pure.pure,
        Except.pure]⟩
  · exact ⟨⟨success, some tm, some te⟩, by
      simp [mkResponse, hvb, hrm, hre, Bind.bind, Except.bind, Pure.pure,
        Except.pure]⟩

/-- Helper: the exception value assembled in the object branch of
`from_fcm_response` is always a string or `None` after the `str()`
coercion. -/
theorem coerced_exception_shape (e0 : Val) :
    isStrV (if isStrV e0 || isNoneV e0 then e0 else .str (pyStr e0)) = true ∨
    isNoneV (if isStrV e0 || isNoneV e0 then e0 else .str (pyStr e0)) = true := by
  by_cases hc : (isStrV e0 || isNoneV e0) = true
  · rw [if_pos hc]
    simpa using hc
  · rw [if_neg hc]
    left
    rfl

/-- Helper: `from_fcm_response` on an exception input yields a failed
response carrying the exception text (an empty text is stored as `None`). -/
theorem from_fcm_exn_eq (m : String) :
    from_fcm_response (.exn m) =
      .ok { success := false, message_id := Option.none,
            exception := if m = "" then Option.none else some m } := by
  by_cases h : m = "" <;>
    simp [from_fcm_response, mkResponse, validate_bool, validate_string,
      isNoneV, isBoolV, isStrV, truthy, h, Bind.bind, Except.bind,
      Pure.pure, Except.pure]

/-- Helper: the string branch of `from_fcm_response`, written out. -/
theorem from_fcm_str_eq (s : String) :
    from_fcm_response (.str s) =
      if h : 2 ≤ (pySplit ("/messages/") s).length then
        mkResponse (.bool true)
          (.str ((pySplit ("/messages/") s).get ⟨1, by omega⟩)) .none
      else mkResponse (.bool false) .none .none := rfl

/-- C3 counterexample: the source splits on `"/messages/"` and takes
`parts[1]` — the segment after the FIRST occurrence, not the last — so on
`"x/messages/a/messages/b"` the parsed id is `"a"` while the claimed
last-segment parse yields `"b"`; and `from_fcm_response` DOES raise on an
object input whose `message_id` attribute is a truthy non-string (the
`Response` constructor's validator raises `TypeError`), contradicting
"never raises". -/
theorem from_fcm_response_cex :
    from_fcm_response (.str ("x/messages/a/messages/b")) =
      .ok { success := true, message_id := some ("a"),
            exception := Option.none } ∧
    specLastSegmentId ("x/messages/a/messages/b") = some ("b") ∧
    (("a" : String)) ≠ ("b") ∧
    from_fcm_response
        (.obj Option.none (some (.int 5)) Option.none Option.none) =
      .error (.typeError ("message_id must be a string.")) :=
  ⟨rfl, rfl, by decide, rfl⟩

/-- C3 amended: `from_fcm_response` handles the three input shapes as
follows.  A string is split on `"/messages/"`: with at least two parts the
result is success with the id equal to the part after the FIRST
`"/messages/"` occurrence (an empty id stored as `None`); with no
occurrence the result is a failure with no id.  An exception input yields a
failure carrying the exception's string form.  An object input is read
defensively — absent attributes are tolerated — with `success` coerced to
`True` exactly for the strings `"1"`/`"true"` case-insensitively, the int
`1`, or the bool `True` (a Python int), and the call never raises provided
the object's `message_id` attribute is absent, `None`, or a string. -/
theorem from_fcm_response_shapes :
    (∀ s x, 2 ≤ (pySplit ("/messages/") s).length →
      (pySplit ("/messages/") s)[1]? = some x →
      from_fcm_response (.str s) =
        .ok { success := true,
              message_id := if x = "" then Option.none else some x,
              exception := Option.none }) ∧
    (∀ s, (pySplit ("/messages/") s).length ≤ 1 →
      from_fcm_response (.str s) =
        .ok { success := false, message_id := Option.none,
              exception := Option.none }) ∧
    (∀ m, from_fcm_response (.exn m) =
      .ok { success := false, message_id := Option.none,
            exception := if m = "" then Option.none else some m }) ∧
    (∀ a : Option Val, extract_success a = true ↔
      ((∃ t, a = some (.str t) ∧
          (t.toLower = "1" ∨ t.toLower = "true")) ∨
        a = some (.int 1) ∨ a = some (.bool true))) ∧
    (∀ (succ exc err mid : Option Val),
      (mid = Option.none ∨ ∃ t, mid = some (.str t)) →
      ∃ resp, from_fcm_response (.obj succ mid exc err) = .ok resp) := by
  refine ⟨?_, ?_, from_fcm_exn_eq, ?_, ?_⟩
  · intro s x h hx
    rw [from_fcm_str_eq, dif_pos h]
    have hlt : 1 < (pySplit ("/messages/") s).length := by omega
    have hxe : (pySplit ("/messages/") s).get ⟨1, hlt⟩ = x := by
      have h2 := List.getElem?_eq_getElem hlt
      rw [h2] at hx
      exact Option.some.inj hx
    rw [show ((pySplit ("/messages/") s).get ⟨1, by omega⟩) =
      ((pySplit ("/messages/") s).get ⟨1, hlt⟩) from rfl, hxe]
    by_cases hx0 : x = "" <;>
      simp [mkResponse, validate_bool, validate_string, isNoneV, isBoolV,
        isStrV, truthy, hx0, Bind.bind, Except.bind, Pure.pure, Except.pure]
  · intro s h
    rw [from_fcm_str_eq, dif_neg (by omega)]
    rfl
  · intro a
    constructor
    · intro h
      rcases a with _ | v
      · simp [extract_success] at h
      · cases v with
        | str t =>
          refine Or.inl ⟨t, rfl, ?_⟩
          simpa [extract_success] using h
        | int n =>
          have hn : n = 1 := by simpa [extract_success] using h
          subst hn
          exact Or.inr (Or.inl rfl)
        | bool b =>
          have hb : b = true := by simpa [extract_success] using h
          subst hb
          exact Or.inr (Or.inr rfl)
        | none => simp [extract_success] at h
        | float r => simp [extract_success] at h
        | list xs => simp [extract_success] at h
        | dict xs => simp [extract_success] at h
        | func i => simp [extract_success] at h
        | wpAction x1 x2 x3 => simp [extract_success] at h
        | wpNotification x1 x2 x3 x4 x5 x6 x7 x8 x9 x10 x11 x12 x13 x14 x15
            x16 => simp [extract_success] at h
        | wpFCMOptions x1 => simp [extract_success] at h
        | wpConfig x1 x2 x3 x4 => simp [extract_success] at h
        | message x1 x2 x3 x4 x5 x6 x7 => simp [extract_success] at h
        | multicastMessage x1 x2 x3 x4 x5 => simp [extract_success] at h
    · intro h
      rcases h with ⟨t, rfl, ht⟩ | rfl | rfl
      · rcases ht with h1 | h1 <;> simp [extract_success, h1]
      · rfl
      · rfl
  · intro succ exc err mid hmid
    have hmshape : isStrV (extract_attribute mid) = true ∨
        isNoneV (extract_attribute mid) = true := by
      rcases hmid with rfl | ⟨t, rfl⟩
      · right; rfl
      · left; rfl
    exact mkResponse_ok_of (extract_success succ) (extract_attribute mid) _
      hmshape (coerced_exception_shape _)

/-- C3 witness: the three shapes evaluated at the concrete inputs of the
claim. -/
theorem from_fcm_response_shapes_witness :
    2 ≤ (pySplit ("/messages/") ("projects/p/messages/123")).length ∧
    (pySplit ("/messages/") ("projects/p/messages/123"))[1]? =
      some ("123") ∧
    from_fcm_response (.str ("projects/p/messages/123")) =
      .ok { success := true, message_id := some ("123"),
            exception := Option.none } ∧
    (pySplit ("/messages/") ("nomatch")).length ≤ 1 ∧
    from_fcm_response (.str ("nomatch")) =
      .ok { success := false, message_id := Option.none,
            exception := Option.none } ∧
    from_fcm_response (.exn ("boom")) =
      .ok { success := false, message_id := Option.none,
            exception := some ("boom") } ∧
    (extract_success (some (Val.str ("TRUE"))) = true ↔
      ((∃ t, some (Val.str ("TRUE")) = some (Val.str t) ∧
          (t.toLower = "1" ∨ t.toLower = "true")) ∨
        some (Val.str ("TRUE")) = some (Val.int 1) ∨
        some (Val.str ("TRUE")) = some (Val.bool true))) ∧
    ((Option.none : Option Val) = Option.none ∨
      ∃ t, (Option.none : Option Val) = some (.str t)) ∧
    ∃ resp, from_fcm_response
      (.obj (some (.str ("1"))) Option.none Option.none Option.none) =
      .ok resp := by
  refine ⟨by decide, by decide, ?_, by decide, ?_, ?_, ?_, Or.inl rfl, ?_⟩
  · have h := from_fcm_response_shapes.1 ("projects/p/messages/123") ("123")
      (by decide) (by decide)
    simpa using h
  · exact from_fcm_response_shapes.2.1 ("nomatch") (by decide)
  · have h := from_fcm_response_shapes.2.2.1 ("boom")
    simpa using h
  · exact from_fcm_response_shapes.2.2.2.1 (some (.str ("TRUE")))
  · exact from_fcm_response_shapes.2.2.2.2 (some (.str ("1"))) Option.none
      Option.none Option.none (Or.inl rfl)

/-- C2: `send` raises a `TypeError` for any non-`Message` argument; for
family members it catches every exception raised inside the try (both the
underlying send call and response reconstruction), folding an underlying
exception into a failed `Response` instead of propagating — so `send`
always returns a `Response` on family input; `send_all` and
`send_multicast` have no such try, so an exception from the underlying
batch call propagates and aborts the whole batch. -/
theorem send_error_policy :
    (∀ (m : Val) (f : CompiledMessage → Except String FcmInput),
      isMessageV m = false →
      send m f = .error (.typeError
        ("The message must be an instance of Message or SimpleMessage."))) ∧
    (∀ (m : Val) (f : CompiledMessage → Except String FcmInput) (e : String),
      isMessageV m = true → f (compileMessage m) = .error e →
      send m f =
        .ok { success := false, message_id := Option.none,
              exception := if e = "" then Option.none else some e }) ∧
    (∀ (m : Val) (f : CompiledMessage → Except String FcmInput),
      isMessageV m = true → ∃ resp, send m f = .ok resp) ∧
    (∀ (msgs : List Val) (g : List CompiledMessage → Except String FcmBatch)
        (e : String), msgs.all isMessageV = true →
      g (msgs.map compileMessage) = .error e →
      send_all msgs g = .error (.exn e)) ∧
    (∀ (mm : Val) (g : CompiledMulticast → Except String FcmBatch)
        (e : String), isMulticastV mm = true →
      g (compileMulticastMessage mm) = .error e →
      send_multicast mm g = .error (.exn e)) := by
  have herr : ∀ (m : Val) (f : CompiledMessage → Except String FcmInput)
      (e : String), isMessageV m = true → f (compileMessage m) = .error e →
      send m f = from_fcm_response (.exn e) := by
    intro m f e hm hf
    simp [send, hm, hf]
  have hok : ∀ (m : Val) (f : CompiledMessage → Except String FcmInput)
      (r : FcmInput), isMessageV m = true → f (compileMessage m) = .ok r →
      send m f = (match from_fcm_response r with
        | .ok resp => .ok resp
        | .error e => from_fcm_response (.exn (PyErr.msgStr e))) := by
    intro m f r hm hf
    simp [send, hm, hf]
  refine ⟨?_, ?_, ?_, ?_, ?_⟩
  · intro m f h
    simp [send, h]
  · intro m f e hm hf
    rw [herr m f e hm hf]
    exact from_fcm_exn_eq e
  · intro m f hm
    cases hf : f (compileMessage m) with
    | error e =>
      rw [herr m f e hm hf]
      exact ⟨_, from_fcm_exn_eq e⟩
    | ok r =>
      cases hr : from_fcm_response r with
      | ok resp => exact ⟨resp, by simp only [hok m f r hm hf, hr]⟩
      | error err =>
        refine ⟨{ success := false, message_id := Option.none,
                  exception := if PyErr.msgStr err = "" then Option.none
                    else some (PyErr.msgStr err) }, ?_⟩
        simp only [hok m f r hm hf, hr]
        exact from_fcm_exn_eq _
  · intro msgs g e hm hg
    simp [send_all, hm, hg]
  · intro mm g e hm hg
    simp [send_multicast, hm, hg]

/-- C2 witness: type rejection, exception folding, and batch propagation at
concrete messages and stub SDK calls. -/
theorem send_error_policy_witness :
    isMessageV (.int 3) = false ∧
    send (.int 3) (fun _ => .error ("boom")) =
      .error (.typeError
        ("The message must be an instance of Message or SimpleMessage.")) ∧
    isMessageV (.message false .none .none .none .none .none .none) = true ∧
    send (.message false .none .none .none .none .none .none)
        (fun _ => .error ("boom")) =
      .ok { success := false, message_id := Option.none,
            exception := some ("boom") } ∧
    (∃ resp, send (.message false .none .none .none .none .none .none)
      (fun _ => .ok (.str ("projects/p/messages/9"))) = .ok resp) ∧
    ([(.message false .none .none .none .none .none .none : Val)].all
      isMessageV = true) ∧
    send_all [(.message false .none .none .none .none .none .none)]
      (fun _ => .error ("bang")) = .error (.exn ("bang")) ∧
    isMulticastV (.multicastMessage .none .none .none .none .none) = true ∧
    send_multicast (.multicastMessage .none .none .none .none .none)
      (fun _ => .error ("bang")) = .error (.exn ("bang")) := by
  refine ⟨rfl, send_error_policy.1 _ _ rfl, rfl, ?_, ?_, rfl, ?_, rfl, ?_⟩
  · have h := send_error_policy.2.1
      (.message false .none .none .none .none .none .none)
      (fun _ => .error ("boom")) ("boom") rfl rfl
    simpa using h
  · exact send_error_policy.2.2.1 _ _ rfl
  · exact send_error_policy.2.2.2.1 _ _ ("bang") rfl rfl
  · exact send_error_policy.2.2.2.2 _ _ ("bang") rfl rfl

/-- C1 witness: the non-recursive projection at the concrete message of the
claim. -/
theorem simpleMessage_toDict_no_recursion_witness :
    (("T" : String) ≠ "") ∧ (("B" : String) ≠ "") ∧ (("tok" : String) ≠ "") ∧
    (mkSimpleMessage (.str ("T")) (.str ("B")) (.str ("tok")) .none .none .none
      .none .none .none .none .none .none .none (.str ("auto")) .none
      (.bool false) (.bool false) (.bool false) .none .none .none =
      .ok (simpleMsg ("T") ("B") ("tok")) ∧
    toDict (simpleMsg ("T") ("B") ("tok")) =
      [(("webpush"),
        .wpConfig .none .none (simpleNotif ("T") ("B")) (.wpFCMOptions .none)),
       (("token"), .str ("tok"))] ∧
    toDict (.wpConfig .none .none (simpleNotif ("T") ("B"))
        (.wpFCMOptions .none)) =
      [(("notification"), simpleNotif ("T") ("B")),
       (("fcm_options"), .wpFCMOptions .none)] ∧
    dictGet (toDict (simpleNotif ("T") ("B"))) ("title") = .str ("T")) :=
  ⟨by decide, by decide, by decide,
    simpleMessage_toDict_no_recursion ("T") ("B") ("tok") (by decide)
      (by decide) (by decide)⟩

/-- Helper: the repair regex never lengthens its input. -/
theorem stripTrailingCommas_length_le (l : List Char) :
    (stripTrailingCommas l).length ≤ l.length := by
  induction l with
  | nil => simp [stripTrailingCommas]
  | cons c rest ih =>
    simp only [stripTrailingCommas]
    split
    · exact le_trans ih (Nat.le_succ _)
    · simp only [List.length_cons]
      omega

/-- Helper: a comma inserted before the final brace does not create a
lookahead match for commas earlier in the text. -/
theorem trailPatAt_comma_extend (xs : List Char)
    (h : trailPatAt (xs ++ ['}']) = false) :
    trailPatAt (xs ++ [',', '}']) = false := by
  induction xs with
  | nil => simp [trailPatAt] at h
  | cons d xs ih =>
    simp only [List.cons_append, trailPatAt] at h ⊢
    by_cases hb : ((d = '}' || d = ']') = true)
    · rw [if_pos hb] at h
      exact absurd h (by simp)
    · rw [if_neg hb] at h ⊢
      by_cases hw : (isPySpace d = true)
      · rw [if_pos hw] at h ⊢
        exact ih h
      · rw [if_neg hw] at h ⊢

/-- Helper: on a text ending in `}` that the repair regex leaves unchanged,
injecting a trailing comma before that final brace is exactly undone by the
repair regex. -/
theorem strip_inject (xs : List Char)
    (h : stripTrailingCommas (xs ++ ['}']) = xs ++ ['}']) :
    stripTrailingCommas (xs ++ [',', '}']) = xs ++ ['}'] := by
  induction xs with
  | nil => rfl
  | cons c xs ih =>
    simp only [List.cons_append, stripTrailingCommas, List.append_eq] at h ⊢
    by_cases hc : (c = ',')
    · subst hc
      by_cases hp : trailPatAt (xs ++ ['}']) = true
      · exfalso
        rw [if_pos (by simp [hp])] at h
        have hlen := stripTrailingCommas_length_le (xs ++ ['}'])
        rw [h] at hlen
        simp only [List.length_cons] at hlen
        omega
      · have hp' : trailPatAt (xs ++ ['}']) = false := by
          cases htp : trailPatAt (xs ++ ['}']) with
          | false => rfl
          | true => exact absurd htp hp
        rw [if_neg (by simp [hp'])] at h
        have h2 : stripTrailingCommas (xs ++ ['}']) = xs ++ ['}'] := by
          simpa using h
        rw [if_neg (by simp [trailPatAt_comma_extend xs hp'])]
        rw [ih h2]
    · rw [if_neg (by simp [hc])] at h ⊢
      have h2 : stripTrailingCommas (xs ++ ['}']) = xs ++ ['}'] := by
        simpa using h
      rw [ih h2]

/-- Helper: the string-literal writer is a difference list. -/
theorem escBody_append (v t1 t2 : List Char) :
    escBody (t1 ++ t2) v = escBody t1 v ++ t2 := by
  induction v with
  | nil => rfl
  | cons c cs ih => simp only [escBody, ih, List.append_assoc]

/-- Helper: `strLit` is a difference list. -/
theorem strLit_append (s : String) (t1 t2 : List Char) :
    strLit s (t1 ++ t2) = strLit s t1 ++ t2 := by
  simp only [strLit, escBody_append, List.cons_append]

/-- Helper: the object-member writer is a difference list. -/
theorem membersInto_append (kvs : List (String × String)) :
    ∀ t1 t2 : List Char,
    membersInto kvs (t1 ++ t2) = membersInto kvs t1 ++ t2 := by
  induction kvs with
  | nil => intro t1 t2; rfl
  | cons kv rest ih =>
    intro t1 t2
    obtain ⟨k, v⟩ := kv
    cases rest with
    | nil => simp only [membersInto, ← List.cons_append, strLit_append]
    | cons kv2 rest2 =>
      simp only [membersInto, ih, ← List.cons_append, strLit_append]

/-- Helper: the parser undoes one character escape. -/
theorem parseStringBody_escChar (c : Char) (tail : List Char) :
    parseStringBody (escChar c ++ tail) =
      (parseStringBody tail).map (fun p => (c :: p.1, p.2)) := by
  by_cases h1 : c = '\\'
  · subst h1
    cases hp : parseStringBody tail <;>
      simp [escChar, parseStringBody, unescChar, hp]
  · by_cases h2 : c = '"'
    · subst h2
      cases hp : parseStringBody tail <;>
        simp [escChar, parseStringBody, unescChar, hp]
    · by_cases h3 : c = '\n'
      · subst h3
        cases hp : parseStringBody tail <;>
          simp [escChar, parseStringBody, unescChar, hp]
      · by_cases h4 : c = '\t'
        · subst h4
          cases hp : parseStringBody tail <;>
            simp [escChar, parseStringBody, unescChar, hp]
        · by_cases h5 : c = '\r'
          · subst h5
            cases hp : parseStringBody tail <;>
              simp [escChar, parseStringBody, unescChar, hp]
          · have hesc : escChar c = [c] := by
              simp [escChar, h1, h2, h3, h4, h5]
            rw [hesc]
            cases hp : parseStringBody tail <;>
              simp [parseStringBody, h1, h2, hp]

/-- Helper: the parser undoes the string-literal writer. -/
theorem parseStringBody_escBody (v tail : List Char) :
    parseStringBody (escBody tail v) = some (v, tail) := by
  induction v with
  | nil => simp [escBody, parseStringBody]
  | cons c cs ih =>
    show parseStringBody (escChar c ++ escBody tail cs) = _
    rw [parseStringBody_escChar, ih]
    rfl

/-- Helper: every character escape is non-empty. -/
theorem escChar_length_pos (c : Char) : 1 ≤ (escChar c).length := by
  unfold escChar
  repeat' split
  all_goals simp

/-- Helper: a written string literal body is longer than its tail. -/
theorem escBody_length (tail v : List Char) :
    tail.length + 1 ≤ (escBody tail v).length := by
  induction v with
  | nil => simp [escBody]
  | cons c cs ih =>
    simp only [escBody, List.length_append]
    have := escChar_length_pos c
    omega

/-- Helper: a written string literal is longer than its tail by at least
its two quotes. -/
theorem strLit_length (s : String) (tail : List Char) :
    tail.length + 2 ≤ (strLit s tail).length := by
  simp only [strLit, List.length_cons]
  have := escBody_length tail s.data
  omega

/-- Helper: each written member contributes at least one character. -/
theorem membersInto_length (kvs : List (String × String)) :
    ∀ tail : List Char,
    kvs.length + tail.length ≤ (membersInto kvs tail).length := by
  induction kvs with
  | nil => intro t; simp [membersInto]
  | cons kv rest ih =>
    intro t
    obtain ⟨k, v⟩ := kv
    cases rest with
    | nil =>
      have h1 := strLit_length k (':' :: ' ' :: strLit v t)
      have h2 := strLit_length v t
      simp only [membersInto, List.length_cons, List.length_nil] at h1 h2 ⊢
      omega
    | cons kv2 rest2 =>
      have hrec := ih t
      have h2 := strLit_length v (',' :: ' ' :: membersInto (kv2 :: rest2) t)
      have h1 := strLit_length k
        (':' :: ' ' :: strLit v (',' :: ' ' :: membersInto (kv2 :: rest2) t))
      simp only [membersInto, List.length_cons, List.length_nil] at h1 h2 hrec ⊢
      omega

/-- Helper: the member parser undoes the member writer, given fuel for
every member. -/
theorem parseMembersAux_correct (kvs : List (String × String)) :
    ∀ fuel : Nat, kvs ≠ [] → kvs.length ≤ fuel →
    parseMembersAux fuel (membersInto kvs ['}']) = some (kvs, []) := by
  induction kvs with
  | nil => intro fuel h _; exact absurd rfl h
  | cons kv rest ih =>
    intro fuel _ hfuel
    obtain ⟨k, v⟩ := kv
    cases fuel with
    | zero => simp at hfuel
    | succ fuel =>
      cases rest with
      | nil =>
        show parseMembersAux (fuel + 1)
          ('"' :: escBody (':' :: ' ' :: ('"' :: escBody ['}'] v.data))
            k.data) = some ([(k, v)], [])
        simp only [parseMembersAux, parseStringBody_escBody]
      | cons kv2 rest2 =>
        have hrec := ih fuel (by simp) (by
          simp only [List.length_cons] at hfuel ⊢
          omega)
        show parseMembersAux (fuel + 1)
          ('"' :: escBody (':' :: ' ' :: ('"' :: escBody
            (',' :: ' ' :: membersInto (kv2 :: rest2) ['}']) v.data))
            k.data) = some ((k, v) :: kv2 :: rest2, [])
        simp only [parseMembersAux, parseStringBody_escBody, hrec]

/-- Helper: the object parser undoes `jsonDumps` on non-empty mappings. -/
theorem parseFlatObj_dumps (kvs : List (String × String)) (hne : kvs ≠ []) :
    parseFlatObj (jsonDumps kvs) = some kvs := by
  show (match parseMembersAux ((membersInto kvs ['}']).length + 1)
      (membersInto kvs ['}']) with
    | some (kvs', []) => some kvs'
    | _ => Option.none) = some kvs
  rw [parseMembersAux_correct kvs ((membersInto kvs ['}']).length + 1) hne
    (by
      have := membersInto_length kvs ['}']
      simp only [List.length_cons, List.length_nil] at this
      omega)]

/-- Helper: stripping whitespace leaves a text with non-space first and
last characters unchanged. -/
theorem pyStrip_of_ends (a b : Char) (m : List Char)
    (ha : isPySpace a = false) (hb : isPySpace b = false) :
    pyStrip (a :: (m ++ [b])) = a :: (m ++ [b]) := by
  unfold pyStrip
  have h1 : (a :: (m ++ [b])).dropWhile isPySpace = a :: (m ++ [b]) := by
    simp [List.dropWhile_cons, ha]
  rw [h1]
  have h2 : (a :: (m ++ [b])).reverse = b :: (m.reverse ++ [a]) := by
    simp
  rw [h2]
  have h3 : (b :: (m.reverse ++ [a])).dropWhile isPySpace =
      b :: (m.reverse ++ [a]) := by
    simp [List.dropWhile_cons, hb]
  rw [h3, ← h2, List.reverse_reverse]

/-- Helper: `str.strip()` leaves a serialized object unchanged. -/
theorem pyStrip_dumps (d : List (String × String)) :
    pyStrip (jsonDumps d) = jsonDumps d := by
  have hsplit : membersInto d ['}'] = membersInto d [] ++ ['}'] := by
    have := membersInto_append d [] ['}']
    simpa using this
  show pyStrip ('{' :: membersInto d ['}']) = '{' :: membersInto d ['}']
  rw [hsplit]
  exact pyStrip_of_ends '{' '}' (membersInto d []) (by decide) (by decide)

/-- C7 counterexample: the repair regex also deletes commas inside string
values.  With `private_key = "x,}"`, serializing, injecting a trailing
comma and reparsing yields a credentials object whose `private_key` is
`"x\x7d"` — not the original — so the round trip is not lossless for every
object. -/
theorem creds_roundtrip_cex :
    from_json_string (injectTrailingComma (jsonDumps
      (FCMServiceAccountCredentials.to_dict
        ⟨"sa", "p", "k", "x,\x7d", "e", "i", "a", "t", "c", "u", "d"⟩))) =
      .ok ⟨"sa", "p", "k", "x\x7d", "e", "i", "a", "t", "c", "u", "d"⟩ ∧
    (⟨"sa", "p", "k", "x\x7d", "e", "i", "a", "t", "c", "u", "d"⟩ :
        FCMServiceAccountCredentials) ≠
      ⟨"sa", "p", "k", "x,\x7d", "e", "i", "a", "t", "c", "u", "d"⟩ :=
  ⟨rfl, by decide⟩

/-- C7 amended: for every credentials object whose serialized JSON is left
unchanged by the trailing-comma repair regex — in particular whenever no
field value contains a comma followed by optional whitespace and a closing
brace or bracket — serializing `to_dict()`, injecting a trailing comma
before the final closing brace, and reparsing with `from_json_string`
reconstructs an object identical to the original: `from_json_string`
strips the injected comma before parsing and the pair round-trips
losslessly on that domain. -/
theorem creds_roundtrip (c : FCMServiceAccountCredentials)
    (h : stripTrailingCommas (jsonDumps c.to_dict) = jsonDumps c.to_dict) :
    from_json_string (injectTrailingComma (jsonDumps c.to_dict)) = .ok c := by
  have hsplit : membersInto c.to_dict ['}'] = membersInto c.to_dict [] ++ ['}'] := by
    have := membersInto_append c.to_dict [] ['}']
    simpa using this
  have hxs : jsonDumps c.to_dict = ('{' :: membersInto c.to_dict []) ++ ['}'] := by
    show '{' :: membersInto c.to_dict ['}'] = _
    rw [hsplit]
    rfl
  have hinj : injectTrailingComma (jsonDumps c.to_dict) =
      ('{' :: membersInto c.to_dict []) ++ [',', '}'] := by
    rw [hxs]
    unfold injectTrailingComma
    rw [List.dropLast_concat]
  have h' : stripTrailingCommas (('{' :: membersInto c.to_dict []) ++ ['}']) =
      ('{' :: membersInto c.to_dict []) ++ ['}'] := by
    rw [← hxs]
    exact h
  have hstrip : stripTrailingCommas
      (injectTrailingComma (jsonDumps c.to_dict)) = jsonDumps c.to_dict := by
    rw [hinj, strip_inject _ h', ← hxs]
  unfold from_json_string
  rw [hstrip, pyStrip_dumps, parseFlatObj_dumps _
    (by simp [FCMServiceAccountCredentials.to_dict])]
  rfl

/-- C7 witness: the round trip at a concrete credentials object (with an
escaped newline in the private key). -/
theorem creds_roundtrip_witness :
    stripTrailingCommas (jsonDumps
      ((⟨"service_account", "proj", "kid", "K\nY", "e@x", "42",
        "https://a/u", "https://a/t", "https://a/c", "https://a/k",
        "googleapis.com"⟩ : FCMServiceAccountCredentials).to_dict)) =
      jsonDumps ((⟨"service_account", "proj", "kid", "K\nY", "e@x", "42",
        "https://a/u", "https://a/t", "https://a/c", "https://a/k",
        "googleapis.com"⟩ : FCMServiceAccountCredentials).to_dict) ∧
    from_json_string (injectTrailingComma (jsonDumps
      ((⟨"service_account", "proj", "kid", "K\nY", "e@x", "42",
        "https://a/u", "https://a/t", "https://a/c", "https://a/k",
        "googleapis.com"⟩ : FCMServiceAccountCredentials).to_dict))) =
      .ok ⟨"service_account", "proj", "kid", "K\nY", "e@x", "42",
        "https://a/u", "https://a/t", "https://a/c", "https://a/k",
        "googleapis.com"⟩ :=
  ⟨rfl, creds_roundtrip _ rfl⟩

end AF
